import Mathlib

/-!
# Verification of the Pintos MLFQ timer sleep/wake core

Shallow embedding of `src/devices/timer.c` from the MLFQ-OPERATING-SYSTEMS
repository: the sleep list (`struct sleeping_thread`, `sleep_list`),
`timer_sleep`, the wake loop of `timer_interrupt`, and the tick conversion of
`real_time_sleep`.

Machine integers (`int64_t` tick counts, priorities) are modelled as `Int`;
the arguments stay far from the 64-bit boundary in every claim, and C signed
overflow is undefined behaviour, so unbounded integers are the faithful model
on the defined range.

The thread structure fields this file needs (`mlfq_priority`,
`ticks_at_priority`, the blocked/ready status) live in `threads/thread.h`;
the repository snapshot ships only `devices/timer.c`, so those fields are
carried in a `ThreadInfo` record and the thread table is a map from thread id
to `ThreadInfo`.  `thread_block` / `thread_unblock` toggle the `blocked` flag
(unblock hands the thread back to the ready structure, which is out of this
file's scope).  `thread_tick` is external to `timer.c`; its only effects that
the claims can observe are (a) that it is invoked once per interrupt, modelled
by the `thread_tick_calls` counter, and (b) that it may fire the 50-tick
priority boost, modelled by the `do_boost` flag together with the
spec-modelled `mlfq_boost_all` below.
-/

/-- The scheduling fields of `struct thread` that `timer.c` reads and writes:
`mlfq_priority`, `ticks_at_priority`, and whether the thread is currently
blocked (sleeping). -/
structure ThreadInfo where
  mlfq_priority : Int
  ticks_at_priority : Int
  blocked : Bool
deriving DecidableEq, Repr

/-- `struct sleeping_thread` from `timer.c`: the sleeping thread (as an id),
the tick at which to wake it, and the LAB 4 snapshot of its MLFQ state.
When `thread_mlfqs` is off the two saved fields are never written in C
(indeterminate) and never read; the model leaves them at 0 in that case. -/
structure sleeping_thread where
  tid : Nat
  wake_tick : Int
  saved_mlfq_priority : Int
  saved_ticks_at_priority : Int
deriving DecidableEq, Repr

/-- The timer-visible system state: the `ticks` counter, the `sleep_list`
(in `list_push_back` order), the thread table, and a counter of how many
times `thread_tick` has been invoked. -/
structure TimerState where
  ticks : Int
  sleep_list : List sleeping_thread
  threads : Nat → ThreadInfo
  thread_tick_calls : Nat

/-- `timer_sleep (ticks)` from `timer.c`: returns immediately if the duration
is non-positive; otherwise builds a `sleeping_thread` entry with
`wake_tick = start + ticks`, snapshots the caller's MLFQ state when
`thread_mlfqs` is set, appends the entry to `sleep_list` with
`list_push_back`, and blocks the calling thread (`thread_block`). -/
def timer_sleep (thread_mlfqs : Bool) (tid : Nat) (ticks : Int)
    (s : TimerState) : TimerState :=
  if ticks ≤ 0 then s
  else
    let cur := s.threads tid
    let st : sleeping_thread :=
      { tid := tid
        wake_tick := s.ticks + ticks
        saved_mlfq_priority := if thread_mlfqs then cur.mlfq_priority else 0
        saved_ticks_at_priority :=
          if thread_mlfqs then cur.ticks_at_priority else 0 }
    { s with
      sleep_list := s.sleep_list ++ [st]
      threads := Function.update s.threads tid { cur with blocked := true } }

/-- Modelled from the spec: `mlfq_boost_all` is implemented in
`src/threads/thread.c`, which is not part of the repository snapshot.  Per the
spec ("sets every task in the system (ready, running, and sleeping) to
`priority_level = L-1`, `ticks_at_level = 0`") and the README ("Iterating
through `all_list` to boost blocked threads"), it walks the all-threads list
and resets every thread's `mlfq_priority` to 19 and `ticks_at_priority` to 0.
It acts on `struct thread` fields only: the `sleeping_thread` snapshots are
unreachable from `thread.c`, since `sleep_list` is a file-scope `static` in
`timer.c` and the struct type is defined only there, with no accessor
exported. -/
def mlfq_boost_all (th : Nat → ThreadInfo) : Nat → ThreadInfo :=
  fun t => { th t with mlfq_priority := 19, ticks_at_priority := 0 }

/-- The wake loop of `timer_interrupt`: walks `sleep_list` from the front;
for each entry whose `wake_tick` has been reached (`ticks >= st->wake_tick`),
restores the saved MLFQ state when `thread_mlfqs` is set, removes the entry
(`list_remove`) and unblocks the thread (`thread_unblock`, modelled as
clearing `blocked`); otherwise moves on to the next entry.  Returns the
remaining sleep list, the updated thread table, and the woken thread ids in
the order they were unblocked. -/
def wake_scan (thread_mlfqs : Bool) (now : Int) :
    List sleeping_thread → (Nat → ThreadInfo) →
    List sleeping_thread × (Nat → ThreadInfo) × List Nat
  | [], th => ([], th, [])
  | st :: rest, th =>
    if now ≥ st.wake_tick then
      let t := th st.tid
      let t2 :=
        if thread_mlfqs then
          { t with mlfq_priority := st.saved_mlfq_priority
                   ticks_at_priority := st.saved_ticks_at_priority
                   blocked := false }
        else { t with blocked := false }
      let r := wake_scan thread_mlfqs now rest (Function.update th st.tid t2)
      (r.1, r.2.1, st.tid :: r.2.2)
    else
      let r := wake_scan thread_mlfqs now rest th
      (st :: r.1, r.2.1, r.2.2)

/-- `timer_interrupt` from `timer.c`: increments `ticks`, invokes
`thread_tick()` once (modelled by the call counter; `do_boost` says whether
this invocation's boost interval elapsed, in which case — only under the MLFQ
policy, where `thread_tick`'s MLFQ logic runs — `mlfq_boost_all` fires), then
runs the wake loop over `sleep_list` with the new tick count. -/
def timer_interrupt (thread_mlfqs do_boost : Bool) (s : TimerState) :
    TimerState :=
  let now := s.ticks + 1
  let th0 := if thread_mlfqs && do_boost then mlfq_boost_all s.threads
             else s.threads
  let r := wake_scan thread_mlfqs now s.sleep_list th0
  { ticks := now
    sleep_list := r.1
    threads := r.2.1
    thread_tick_calls := s.thread_tick_calls + 1 }

/-- The thread ids unblocked by one `timer_interrupt` invocation on state
`s`, in the order `thread_unblock` is called on them. -/
def woken_by (thread_mlfqs do_boost : Bool) (s : TimerState) : List Nat :=
  let th0 := if thread_mlfqs && do_boost then mlfq_boost_all s.threads
             else s.threads
  (wake_scan thread_mlfqs (s.ticks + 1) s.sleep_list th0).2.2

/-- The observable outcome of `real_time_sleep`: either a blocking
`timer_sleep (t)` call or a busy-wait `real_time_delay (num, denom)` call. -/
inductive SleepAction where
  | sleep (t : Int)
  | delay (num denom : Int)
deriving DecidableEq, Repr

/-- `real_time_sleep (num, denom)` from `timer.c`: converts `num/denom`
seconds into ticks as `num * TIMER_FREQ / denom` (C `int64_t` division,
i.e. truncation toward zero, `Int.tdiv`); sleeps via `timer_sleep` when the
result is positive, otherwise busy-waits via `real_time_delay`.
`TIMER_FREQ` comes from the build configuration (`timer.h` checks
`19 <= TIMER_FREQ <= 1000`), so it is a parameter here. -/
def real_time_sleep (freq num denom : Int) : SleepAction :=
  let t := Int.tdiv (num * freq) denom
  if t > 0 then .sleep t else .delay num denom

/-- `timer_msleep (ms)` from `timer.c`. -/
def timer_msleep (freq ms : Int) : SleepAction :=
  real_time_sleep freq ms 1000

/-- `timer_usleep (us)` from `timer.c`. -/
def timer_usleep (freq us : Int) : SleepAction :=
  real_time_sleep freq us (1000 * 1000)

/-- `timer_nsleep (ns)` from `timer.c`. -/
def timer_nsleep (freq ns : Int) : SleepAction :=
  real_time_sleep freq ns (1000 * 1000 * 1000)

/-! ## Basic lemmas about the wake loop -/

/-- The sleep list left by one wake loop is exactly the entries whose
deadline has not yet been reached, in their original order. -/
theorem wake_scan_fst (m : Bool) (now : Int) :
    ∀ (l : List sleeping_thread) (th : Nat → ThreadInfo),
      (wake_scan m now l th).1 =
        l.filter (fun st => decide (now < st.wake_tick))
  | [], _ => rfl
  | st :: rest, th => by
    by_cases h : now ≥ st.wake_tick
    · simp [wake_scan, h, wake_scan_fst m now rest, not_lt_of_ge h]
    · simp [wake_scan, h, wake_scan_fst m now rest, lt_of_not_ge h]

/-- The wake loop unblocks exactly the entries whose deadline has been
reached, in sleep-list order. -/
theorem wake_scan_woken (m : Bool) (now : Int) :
    ∀ (l : List sleeping_thread) (th : Nat → ThreadInfo),
      (wake_scan m now l th).2.2 =
        (l.filter (fun st => decide (st.wake_tick ≤ now))).map
          (fun st => st.tid)
  | [], _ => rfl
  | st :: rest, th => by
    by_cases h : now ≥ st.wake_tick
    · simp [wake_scan, h, wake_scan_woken m now rest, ge_iff_le.mp h]
    · have h2 : ¬ st.wake_tick ≤ now := h
      simp [wake_scan, h, wake_scan_woken m now rest, h2]

/-- A thread none of whose sleep entries expire is untouched by the wake
loop. -/
theorem wake_scan_frame (m : Bool) (now : Int) :
    ∀ (l : List sleeping_thread) (th : Nat → ThreadInfo) (t : Nat),
      (∀ st ∈ l, st.wake_tick ≤ now → st.tid ≠ t) →
      (wake_scan m now l th).2.1 t = th t
  | [], _, _, _ => rfl
  | st :: rest, th, t, h => by
    have hrest : ∀ e ∈ rest, e.wake_tick ≤ now → e.tid ≠ t :=
      fun e he hee => h e (by simp [he]) hee
    by_cases hx : now ≥ st.wake_tick
    · have htid : st.tid ≠ t := h st (by simp) hx
      simp only [wake_scan, hx, if_true]
      rw [wake_scan_frame m now rest _ t hrest,
        Function.update_noteq (Ne.symm htid)]
    · simp only [wake_scan, hx, if_false]
      exact wake_scan_frame m now rest th t hrest

/-- A thread with an expired sleep entry is unblocked by the wake loop. -/
theorem wake_scan_unblocks (m : Bool) (now : Int) :
    ∀ (l : List sleeping_thread) (th : Nat → ThreadInfo) (t : Nat),
      (∃ st ∈ l, st.wake_tick ≤ now ∧ st.tid = t) →
      ((wake_scan m now l th).2.1 t).blocked = false
  | [], _, _, h => by simp at h
  | st :: rest, th, t, h => by
    by_cases hrest : ∃ e ∈ rest, e.wake_tick ≤ now ∧ e.tid = t
    · by_cases hx : now ≥ st.wake_tick
      · simp only [wake_scan, hx, if_true]
        exact wake_scan_unblocks m now rest _ t hrest
      · simp only [wake_scan, hx, if_false]
        exact wake_scan_unblocks m now rest th t hrest
    · obtain ⟨e, he, hee, het⟩ := h
      rcases List.mem_cons.mp he with rfl | hmem
      · have hx : now ≥ e.wake_tick := hee
        have hframe : ∀ e2 ∈ rest, e2.wake_tick ≤ now → e2.tid ≠ t := by
          intro e2 h2 h3 hcon
          exact hrest ⟨e2, h2, h3, hcon⟩
        simp only [wake_scan, hx, if_true]
        rw [wake_scan_frame m now rest _ t hframe]
        subst het
        rw [Function.update_same]
        by_cases hm : m <;> simp [hm]
      · exact absurd ⟨e, hmem, hee, het⟩ hrest

/-- Under MLFQ, if every sleep entry of thread `t` has expired and carries the
saved state `(p, k)`, and there is at least one such entry, then after the
wake loop thread `t` holds exactly the restored state, unblocked. -/
theorem wake_scan_restore (now : Int) (p k : Int) :
    ∀ (l : List sleeping_thread) (th : Nat → ThreadInfo) (t : Nat),
      (∃ st ∈ l, st.tid = t) →
      (∀ st ∈ l, st.tid = t →
        st.wake_tick ≤ now ∧ st.saved_mlfq_priority = p ∧
          st.saved_ticks_at_priority = k) →
      (wake_scan true now l th).2.1 t = ⟨p, k, false⟩
  | [], _, _, hex, _ => by simp at hex
  | st :: rest, th, t, hex, hall => by
    by_cases htid : st.tid = t
    · obtain ⟨hw, hp, hk⟩ := hall st (by simp) htid
      have hx : now ≥ st.wake_tick := hw
      simp only [wake_scan, hx, if_true, if_pos rfl]
      by_cases hrest : ∃ e ∈ rest, e.tid = t
      · exact wake_scan_restore now p k rest _ t hrest
          (fun e he het => hall e (by simp [he]) het)
      · have hframe : ∀ e ∈ rest, e.wake_tick ≤ now → e.tid ≠ t := by
          intro e he _ hcon
          exact hrest ⟨e, he, hcon⟩
        rw [wake_scan_frame true now rest _ t hframe]
        subst htid
        rw [Function.update_same, hp, hk]
    · have hex2 : ∃ e ∈ rest, e.tid = t := by
        obtain ⟨e, he, het⟩ := hex
        rcases List.mem_cons.mp he with rfl | hmem
        · exact absurd het htid
        · exact ⟨e, hmem, het⟩
      have hall2 : ∀ e ∈ rest, e.tid = t →
          e.wake_tick ≤ now ∧ e.saved_mlfq_priority = p ∧
            e.saved_ticks_at_priority = k :=
        fun e he het => hall e (by simp [he]) het
      by_cases hx : now ≥ st.wake_tick
      · simp only [wake_scan, hx, if_true]
        exact wake_scan_restore now p k rest _ t hex2 hall2
      · simp only [wake_scan, hx, if_false]
        exact wake_scan_restore now p k rest th t hex2 hall2

/-- The sleep list after one `timer_interrupt` is the filter of the entries
whose deadline the new tick count has not reached. -/
theorem timer_interrupt_sleep_list (m b : Bool) (s : TimerState) :
    (timer_interrupt m b s).sleep_list =
      s.sleep_list.filter (fun st => decide (s.ticks + 1 < st.wake_tick)) := by
  show (wake_scan m (s.ticks + 1) s.sleep_list _).1 = _
  rw [wake_scan_fst]

/-- Without a boost, `timer_interrupt` leaves a thread untouched unless one
of its sleep entries expires. -/
theorem timer_interrupt_noboost_frame (m : Bool) (s : TimerState) (t : Nat)
    (h : ∀ st ∈ s.sleep_list, st.wake_tick ≤ s.ticks + 1 → st.tid ≠ t) :
    (timer_interrupt m false s).threads t = s.threads t := by
  have hth : (timer_interrupt m false s).threads =
      (wake_scan m (s.ticks + 1) s.sleep_list s.threads).2.1 := by
    show (wake_scan m (s.ticks + 1) s.sleep_list
      (if m && false then mlfq_boost_all s.threads else s.threads)).2.1 = _
    rw [Bool.and_false]
    simp
  rw [hth, wake_scan_frame m _ _ _ t h]

/-- A boost changes only the two MLFQ fields; the blocked status survives any
`timer_interrupt` whose wake loop does not touch the thread. -/
theorem timer_interrupt_blocked_frame (m b : Bool) (s : TimerState) (t : Nat)
    (h : ∀ st ∈ s.sleep_list, st.wake_tick ≤ s.ticks + 1 → st.tid ≠ t) :
    ((timer_interrupt m b s).threads t).blocked = (s.threads t).blocked := by
  have hth : (timer_interrupt m b s).threads =
      (wake_scan m (s.ticks + 1) s.sleep_list
        (if m && b then mlfq_boost_all s.threads else s.threads)).2.1 := rfl
  rw [hth, wake_scan_frame m _ _ _ t h]
  by_cases hmb : (m && b) = true <;> simp [hmb, mlfq_boost_all]

/-- `timer_sleep` never advances the clock. -/
theorem timer_sleep_ticks (m : Bool) (tid : Nat) (d : Int) (s : TimerState) :
    (timer_sleep m tid d s).ticks = s.ticks := by
  by_cases hd : d ≤ 0 <;> simp [timer_sleep, hd]

/-! ## C4: non-positive duration is a no-op -/

/-- C4: `timer_sleep` with a non-positive duration returns immediately: the
whole state — sleep list, thread table (so no blocking), tick counter — is
unchanged. -/
theorem timer_sleep_nonpos_noop (m : Bool) (tid : Nat) (d : Int)
    (s : TimerState) (hd : d ≤ 0) :
    timer_sleep m tid d s = s := by
  simp [timer_sleep, hd]

/-- Witness for `timer_sleep_nonpos_noop` at a concrete input. -/
theorem timer_sleep_nonpos_noop_witness :
    (0 : Int) ≤ 0 ∧
      timer_sleep true 0 0 ⟨0, [], fun _ => ⟨19, 0, false⟩, 0⟩ =
        ⟨0, [], fun _ => ⟨19, 0, false⟩, 0⟩ :=
  ⟨le_refl 0, timer_sleep_nonpos_noop true 0 0 _ (le_refl 0)⟩

/-- Under MLFQ with no boost, `timer_interrupt` restores the saved state
`(p, k)` onto a thread all of whose sleep entries have expired carrying that
state. -/
theorem timer_interrupt_restore (s : TimerState) (t : Nat) (p k : Int)
    (hex : ∃ st ∈ s.sleep_list, st.tid = t)
    (hall : ∀ st ∈ s.sleep_list, st.tid = t →
      st.wake_tick ≤ s.ticks + 1 ∧ st.saved_mlfq_priority = p ∧
        st.saved_ticks_at_priority = k) :
    (timer_interrupt true false s).threads t = ⟨p, k, false⟩ := by
  have hth : (timer_interrupt true false s).threads =
      (wake_scan true (s.ticks + 1) s.sleep_list s.threads).2.1 := rfl
  rw [hth]
  exact wake_scan_restore (s.ticks + 1) p k s.sleep_list s.threads t hex hall

/-- Iterating no-boost interrupts never touches a thread with no sleep
entry, and never gives it one. -/
theorem iterate_interrupt_frame (t : Nat) (j : Nat) :
    ∀ (s : TimerState), (∀ e ∈ s.sleep_list, e.tid ≠ t) →
      ((timer_interrupt true false)^[j] s).threads t = s.threads t ∧
      (∀ e ∈ ((timer_interrupt true false)^[j] s).sleep_list, e.tid ≠ t) := by
  induction j with
  | zero => exact fun s h => ⟨rfl, h⟩
  | succ j ih =>
    intro s h
    rw [Function.iterate_succ_apply]
    have h1 : ∀ e ∈ (timer_interrupt true false s).sleep_list, e.tid ≠ t := by
      intro e he
      rw [timer_interrupt_sleep_list] at he
      exact h e (List.mem_of_mem_filter he)
    obtain ⟨a, b⟩ := ih (timer_interrupt true false s) h1
    refine ⟨?_, b⟩
    rw [a, timer_interrupt_noboost_frame true s t (fun e he _ => h e he)]

/-- Core sleep/wake induction: a blocked thread holding state `(p, k)` whose
unique sleep entry carries snapshot `(p, k)` and deadline `w` in the future
is, once at least `w - ticks` no-boost interrupts have run, awake with
exactly the state `(p, k)`. -/
theorem wake_restores_of_unique (tid : Nat) (p k w : Int) (j : Nat) :
    ∀ (s1 : TimerState),
      s1.threads tid = ⟨p, k, true⟩ →
      (⟨tid, w, p, k⟩ : sleeping_thread) ∈ s1.sleep_list →
      (∀ e ∈ s1.sleep_list, e.tid = tid → e = ⟨tid, w, p, k⟩) →
      s1.ticks < w → w ≤ s1.ticks + j →
      ((timer_interrupt true false)^[j] s1).threads tid = ⟨p, k, false⟩ := by
  induction j with
  | zero =>
    intro s1 _ _ _ hlt hle
    omega
  | succ j ih =>
    intro s1 hth hmem huniq hlt hle
    rw [Function.iterate_succ_apply]
    by_cases hw : w ≤ s1.ticks + 1
    · have hrestore : (timer_interrupt true false s1).threads tid =
          ⟨p, k, false⟩ := by
        refine timer_interrupt_restore s1 tid p k ⟨_, hmem, rfl⟩ ?_
        intro e he het
        have heq := huniq e he het
        rw [heq]
        exact ⟨hw, rfl, rfl⟩
      have hgone : ∀ e ∈ (timer_interrupt true false s1).sleep_list,
          e.tid ≠ tid := by
        intro e he hcon
        rw [timer_interrupt_sleep_list] at he
        have hmem2 := List.mem_of_mem_filter he
        have hcond : s1.ticks + 1 < e.wake_tick := by
          have := List.of_mem_filter he
          simpa using this
        have heq := huniq e hmem2 hcon
        rw [heq] at hcond
        have hcond2 : s1.ticks + 1 < w := hcond
        omega
      obtain ⟨a, _⟩ := iterate_interrupt_frame tid j
        (timer_interrupt true false s1) hgone
      rw [a, hrestore]
    · push_neg at hw
      refine ih (timer_interrupt true false s1) ?_ ?_ ?_ ?_ ?_
      · have hno : ∀ e ∈ s1.sleep_list, e.wake_tick ≤ s1.ticks + 1 →
            e.tid ≠ tid := by
          intro e he hee hcon
          have heq := huniq e he hcon
          rw [heq] at hee
          have hee2 : w ≤ s1.ticks + 1 := hee
          omega
        rw [timer_interrupt_noboost_frame true s1 tid hno, hth]
      · rw [timer_interrupt_sleep_list]
        simp only [List.mem_filter, decide_eq_true_eq]
        exact ⟨hmem, hw⟩
      · intro e he het
        rw [timer_interrupt_sleep_list] at he
        exact huniq e (List.mem_of_mem_filter he) het
      · show s1.ticks + 1 < w
        exact hw
      · show w ≤ s1.ticks + 1 + (j : Int)
        omega

/-! ## C2: sleep/wake fidelity without boost -/

/-- C2: a thread at MLFQ state `(p, k)` that registers a positive sleep and
is woken by the tick handler, with no boost firing during the sleep, has —
immediately after its wake — `mlfq_priority = p` and `ticks_at_priority = k`
exactly (and is no longer blocked).  The freshness hypothesis is the kernel
invariant that the caller does not already have a sleep entry. -/
theorem sleep_wake_fidelity (s : TimerState) (tid : Nat) (d : Int) (n : Nat)
    (p k : Int)
    (hp : (s.threads tid).mlfq_priority = p)
    (hk : (s.threads tid).ticks_at_priority = k)
    (hd : 0 < d)
    (hfresh : ∀ e ∈ s.sleep_list, e.tid ≠ tid)
    (hn : d ≤ (n : Int)) :
    ((timer_interrupt true false)^[n]
      (timer_sleep true tid d s)).threads tid = ⟨p, k, false⟩ := by
  have hd2 : ¬ d ≤ 0 := by omega
  have hsl_list : (timer_sleep true tid d s).sleep_list =
      s.sleep_list ++ [⟨tid, s.ticks + d, p, k⟩] := by
    simp [timer_sleep, hd2, hp, hk]
  have hsl_threads : (timer_sleep true tid d s).threads tid =
      ⟨p, k, true⟩ := by
    simp [timer_sleep, hd2, Function.update_same, hp, hk]
  have hticks : (timer_sleep true tid d s).ticks = s.ticks :=
    timer_sleep_ticks true tid d s
  refine wake_restores_of_unique tid p k (s.ticks + d) n
    (timer_sleep true tid d s) hsl_threads ?_ ?_ ?_ ?_
  · rw [hsl_list]
    simp
  · intro e he het
    rw [hsl_list] at he
    rcases List.mem_append.mp he with h1 | h1
    · exact absurd het (hfresh e h1)
    · simpa using h1
  · rw [hticks]
    omega
  · rw [hticks]
    omega

/-- Witness for `sleep_wake_fidelity` at a concrete input: a thread at state
`(5, 2)` sleeps for 1 tick and one interrupt wakes it with `(5, 2)`
restored. -/
theorem sleep_wake_fidelity_witness :
    ((fun _ => (⟨5, 2, false⟩ : ThreadInfo)) 0).mlfq_priority = 5 ∧
    ((fun _ => (⟨5, 2, false⟩ : ThreadInfo)) 0).ticks_at_priority = 2 ∧
    (0 : Int) < 1 ∧ (1 : Int) ≤ (1 : Nat) ∧
    ((timer_interrupt true false)^[1]
      (timer_sleep true 0 1
        ⟨0, [], fun _ => ⟨5, 2, false⟩, 0⟩)).threads 0 = ⟨5, 2, false⟩ :=
  ⟨rfl, rfl, by decide, by decide,
   sleep_wake_fidelity ⟨0, [], fun _ => ⟨5, 2, false⟩, 0⟩ 0 1 1 5 2
     rfl rfl (by decide) (by simp) (by decide)⟩

/-! ## C1: a boost during sleep is clobbered by the wake-path restore -/

/-- C1 (failing scenario): a thread at level 0 with `ticks_at_priority = 3`
sleeps for 3 ticks; a boost fires while it sleeps (second interrupt), setting
its fields to `(19, 0)` — it is still blocked then — but the wake path of
the third interrupt restores the pre-sleep snapshot, so the thread wakes
with `mlfq_priority = 0`, not the boosted 19.  Lines 284–288 of `timer.c`
overwrite the boost unconditionally, and `mlfq_boost_all` (in `thread.c`)
cannot rewrite the snapshot, which lives in a list that is `static` to
`timer.c`. -/
theorem boost_lost_on_wake :
    ((timer_interrupt true true
        (timer_interrupt true false
          (timer_sleep true 0 3
            ⟨0, [], fun _ => ⟨0, 3, false⟩, 0⟩))).threads 0).mlfq_priority
        = 19 ∧
    ((timer_interrupt true true
        (timer_interrupt true false
          (timer_sleep true 0 3
            ⟨0, [], fun _ => ⟨0, 3, false⟩, 0⟩))).threads 0).blocked
        = true ∧
    (timer_interrupt true false
      (timer_interrupt true true
        (timer_interrupt true false
          (timer_sleep true 0 3
            ⟨0, [], fun _ => ⟨0, 3, false⟩, 0⟩)))).threads 0
        = ⟨0, 3, false⟩ := by
  refine ⟨?_, ?_, ?_⟩ <;> decide

/-! ## C3: deadline arithmetic and exact wake condition -/

/-- C3: `timer_sleep` with positive duration appends an entry with
`wake_tick = now + duration` and blocks the caller; each `timer_interrupt`
removes from the sleep list exactly the entries whose deadline the current
tick count has reached and unblocks their threads (handing them back to the
ready structure via `thread_unblock`), keeping all others. -/
theorem register_deadline_wake_exact (m : Bool) (tid : Nat) (d : Int)
    (s : TimerState) (hd : 0 < d) :
    (∃ e, (timer_sleep m tid d s).sleep_list = s.sleep_list ++ [e] ∧
      e.tid = tid ∧ e.wake_tick = s.ticks + d) ∧
    ((timer_sleep m tid d s).threads tid).blocked = true ∧
    (timer_interrupt m false s).sleep_list =
      s.sleep_list.filter (fun st => decide (s.ticks + 1 < st.wake_tick)) ∧
    (∀ e ∈ s.sleep_list, e.wake_tick ≤ s.ticks + 1 →
      ((timer_interrupt m false s).threads e.tid).blocked = false) := by
  have hd2 : ¬ d ≤ 0 := by omega
  refine ⟨?_, ?_, timer_interrupt_sleep_list m false s, ?_⟩
  · refine ⟨{ tid := tid
              wake_tick := s.ticks + d
              saved_mlfq_priority :=
                if m then (s.threads tid).mlfq_priority else 0
              saved_ticks_at_priority :=
                if m then (s.threads tid).ticks_at_priority else 0 },
      ?_, rfl, rfl⟩
    simp [timer_sleep, hd2]
  · simp [timer_sleep, hd2, Function.update_same]
  · intro e he hee
    have hth : (timer_interrupt m false s).threads =
        (wake_scan m (s.ticks + 1) s.sleep_list s.threads).2.1 := by
      show (wake_scan m (s.ticks + 1) s.sleep_list
        (if m && false then mlfq_boost_all s.threads else s.threads)).2.1 = _
      rw [Bool.and_false]
      simp
    rw [hth]
    exact wake_scan_unblocks m _ _ _ _ ⟨e, he, hee, rfl⟩

/-- Witness for `register_deadline_wake_exact` at a concrete input. -/
theorem register_deadline_wake_exact_witness :
    (0 : Int) < 4 ∧
    ((∃ e, (timer_sleep true 7 4
        ⟨10, [], fun _ => ⟨6, 1, false⟩, 0⟩).sleep_list = [] ++ [e] ∧
      e.tid = 7 ∧ e.wake_tick = 10 + 4) ∧
    ((timer_sleep true 7 4
        ⟨10, [], fun _ => ⟨6, 1, false⟩, 0⟩).threads 7).blocked = true ∧
    (timer_interrupt true false
        ⟨10, [], fun _ => ⟨6, 1, false⟩, 0⟩).sleep_list =
      List.filter (fun st => decide (10 + 1 < st.wake_tick)) [] ∧
    (∀ e ∈ ([] : List sleeping_thread), e.wake_tick ≤ 10 + 1 →
      ((timer_interrupt true false
        ⟨10, [], fun _ => ⟨6, 1, false⟩, 0⟩).threads e.tid).blocked =
        false)) :=
  ⟨by decide,
   register_deadline_wake_exact true 7 4
     ⟨10, [], fun _ => ⟨6, 1, false⟩, 0⟩ (by decide)⟩

/-! ## C5: no early wake -/

/-- C5: a sleep entry whose deadline exceeds the tick count reached by this
interrupt stays in the sleep list, and its thread stays blocked — the tick
handler never unblocks a sleeper before its deadline.  (The uniqueness
hypothesis reflects the kernel invariant that a blocked thread has at most
one sleep entry.) -/
theorem no_early_wake (m b : Bool) (s : TimerState) (st : sleeping_thread)
    (hmem : st ∈ s.sleep_list) (hlate : s.ticks + 1 < st.wake_tick)
    (hblocked : (s.threads st.tid).blocked = true)
    (huniq : ∀ e ∈ s.sleep_list, e.tid = st.tid → e = st) :
    st ∈ (timer_interrupt m b s).sleep_list ∧
    ((timer_interrupt m b s).threads st.tid).blocked = true := by
  have hframe : ∀ e ∈ s.sleep_list, e.wake_tick ≤ s.ticks + 1 →
      e.tid ≠ st.tid := by
    intro e he hee hcon
    have heq := huniq e he hcon
    rw [heq] at hee
    omega
  constructor
  · rw [timer_interrupt_sleep_list]
    simp only [List.mem_filter, decide_eq_true_eq]
    exact ⟨hmem, hlate⟩
  · rw [timer_interrupt_blocked_frame m b s st.tid hframe]
    exact hblocked

/-- Witness for `no_early_wake` at a concrete input. -/
theorem no_early_wake_witness :
    (⟨3, 9, 2, 0⟩ : sleeping_thread) ∈
        [(⟨3, 9, 2, 0⟩ : sleeping_thread)] ∧
    (5 : Int) + 1 < 9 ∧
    (⟨3, 9, 2, 0⟩ : sleeping_thread) ∈
      (timer_interrupt true true
        ⟨5, [⟨3, 9, 2, 0⟩], fun _ => ⟨2, 0, true⟩, 0⟩).sleep_list ∧
    ((timer_interrupt true true
        ⟨5, [⟨3, 9, 2, 0⟩], fun _ => ⟨2, 0, true⟩, 0⟩).threads 3).blocked =
      true :=
  ⟨by decide, by decide,
   (no_early_wake true true ⟨5, [⟨3, 9, 2, 0⟩], fun _ => ⟨2, 0, true⟩, 0⟩
     ⟨3, 9, 2, 0⟩ (by decide) (by decide) (by decide) (by decide)).1,
   (no_early_wake true true ⟨5, [⟨3, 9, 2, 0⟩], fun _ => ⟨2, 0, true⟩, 0⟩
     ⟨3, 9, 2, 0⟩ (by decide) (by decide) (by decide) (by decide)).2⟩

/-! ## C8: wake completeness and ordering within one tick -/

/-- C8: one `timer_interrupt` unblocks every entry whose deadline has been
reached (not just the first) — the woken ids are exactly the expired entries
in sleep-list order, which is registration order since `timer_sleep` appends
with `list_push_back` — and retains exactly the unexpired entries. -/
theorem wake_complete_ordered (m b : Bool) (s : TimerState) :
    woken_by m b s =
      (s.sleep_list.filter
        (fun st => decide (st.wake_tick ≤ s.ticks + 1))).map
        (fun st => st.tid) ∧
    (timer_interrupt m b s).sleep_list =
      s.sleep_list.filter (fun st => decide (s.ticks + 1 < st.wake_tick)) := by
  refine ⟨?_, timer_interrupt_sleep_list m b s⟩
  show (wake_scan m (s.ticks + 1) s.sleep_list _).2.2 = _
  rw [wake_scan_woken]

/-! ## C9: tick conversion in `real_time_sleep` -/

/-- C9: for `num ≥ 0`, `denom > 0` (and a positive `TIMER_FREQ`),
`real_time_sleep` computes `num * TIMER_FREQ / denom` ticks — C truncating
division, which on these non-negative operands is division rounding down —
and blocks via `timer_sleep` exactly when the result is positive, otherwise
busy-waiting via `real_time_delay`. -/
theorem real_time_sleep_conversion (freq num denom : Int)
    (hnum : 0 ≤ num) (hdenom : 0 < denom) (hfreq : 0 ≤ freq) :
    real_time_sleep freq num denom =
      (if 0 < num * freq / denom then SleepAction.sleep (num * freq / denom)
       else SleepAction.delay num denom) ∧
    Int.tdiv (num * freq) denom = num * freq / denom := by
  have ht : Int.tdiv (num * freq) denom = num * freq / denom :=
    Int.tdiv_eq_ediv (mul_nonneg hnum hfreq) (le_of_lt hdenom)
  exact ⟨by rw [real_time_sleep, ht], ht⟩

/-- Witness for `real_time_sleep_conversion` at a concrete input
(`TIMER_FREQ = 100`, 25 ms): 25 * 100 / 1000 = 2 ticks, positive, so the
blocking branch is taken. -/
theorem real_time_sleep_conversion_witness :
    (0 : Int) ≤ 25 ∧ (0 : Int) < 1000 ∧ (0 : Int) ≤ 100 ∧
    (real_time_sleep 100 25 1000 =
      (if 0 < (25 : Int) * 100 / 1000 then
        SleepAction.sleep ((25 : Int) * 100 / 1000)
       else SleepAction.delay 25 1000) ∧
     Int.tdiv ((25 : Int) * 100) 1000 = (25 : Int) * 100 / 1000) :=
  ⟨by decide, by decide, by decide,
   real_time_sleep_conversion 100 25 1000 (by decide) (by decide) (by decide)⟩

/-! ## C7: one tick, one `thread_tick` call, per interrupt -/

/-- C7: each `timer_interrupt` invocation increments `ticks` by exactly one
(hence the counter strictly increases and never decreases) and invokes
`thread_tick` exactly once. -/
theorem timer_interrupt_ticks (m b : Bool) (s : TimerState) :
    (timer_interrupt m b s).ticks = s.ticks + 1 ∧
    (timer_interrupt m b s).thread_tick_calls = s.thread_tick_calls + 1 ∧
    s.ticks < (timer_interrupt m b s).ticks := by
  refine ⟨rfl, rfl, ?_⟩
  show s.ticks < s.ticks + 1
  omega

/-- `timer_sleep` leaves every thread's two MLFQ fields unchanged. -/
theorem timer_sleep_fields (m : Bool) (tid : Nat) (d : Int) (s : TimerState)
    (t : Nat) :
    ((timer_sleep m tid d s).threads t).mlfq_priority =
      (s.threads t).mlfq_priority ∧
    ((timer_sleep m tid d s).threads t).ticks_at_priority =
      (s.threads t).ticks_at_priority := by
  by_cases hd : d ≤ 0
  · simp [timer_sleep, hd]
  · constructor <;>
      · by_cases ht : t = tid <;>
          simp [timer_sleep, hd, ht, Function.update]

/-! ## C6: legacy (non-MLFQ) policy neither snapshots nor restores -/

/-- With `thread_mlfqs` off, the wake loop only clears the blocked flag: it
never writes a thread's `mlfq_priority` or `ticks_at_priority`. -/
theorem wake_scan_legacy_fields (now : Int) :
    ∀ (l : List sleeping_thread) (th : Nat → ThreadInfo) (t : Nat),
      ((wake_scan false now l th).2.1 t).mlfq_priority =
        (th t).mlfq_priority ∧
      ((wake_scan false now l th).2.1 t).ticks_at_priority =
        (th t).ticks_at_priority
  | [], _, _ => ⟨rfl, rfl⟩
  | st :: rest, th, t => by
    by_cases hx : now ≥ st.wake_tick
    · have IH := wake_scan_legacy_fields now rest
        (Function.update th st.tid { th st.tid with blocked := false }) t
      simp only [wake_scan, hx, if_true, Bool.false_eq_true, if_false]
      refine ⟨IH.1.trans ?_, IH.2.trans ?_⟩ <;>
      · rw [Function.update_apply]
        by_cases ht : t = st.tid <;> simp [ht]
    · have IH := wake_scan_legacy_fields now rest th t
      simp only [wake_scan, hx, if_false]
      exact IH

/-- C6: under the legacy policy neither `timer_sleep` (no snapshot taken)
nor `timer_interrupt` (restoration and boost are no-ops) ever changes any
thread's `mlfq_priority` or `ticks_at_priority`: the woken task's fields are
exactly what they were at every step of the sleep. -/
theorem legacy_no_snapshot_no_restore (s : TimerState) (tid : Nat) (d : Int)
    (b : Bool) (t : Nat) :
    ((timer_sleep false tid d s).threads t).mlfq_priority =
      (s.threads t).mlfq_priority ∧
    ((timer_sleep false tid d s).threads t).ticks_at_priority =
      (s.threads t).ticks_at_priority ∧
    ((timer_interrupt false b s).threads t).mlfq_priority =
      (s.threads t).mlfq_priority ∧
    ((timer_interrupt false b s).threads t).ticks_at_priority =
      (s.threads t).ticks_at_priority := by
  have hsleep := timer_sleep_fields false tid d s t
  have hth : (timer_interrupt false b s).threads =
      (wake_scan false (s.ticks + 1) s.sleep_list s.threads).2.1 := by
    show (wake_scan false (s.ticks + 1) s.sleep_list
      (if false && b then mlfq_boost_all s.threads else s.threads)).2.1 = _
    rw [Bool.false_and]
    simp
  have hwake := wake_scan_legacy_fields (s.ticks + 1) s.sleep_list s.threads t
  exact ⟨hsleep.1, hsleep.2, by rw [hth]; exact hwake.1,
    by rw [hth]; exact hwake.2⟩

/-! ## C10: `timer_sleep` never writes the caller's scheduling fields -/

/-- C10: `timer_sleep` leaves every thread's `mlfq_priority` and
`ticks_at_priority` unchanged (for the caller they are only read, for the
snapshot), leaves `ticks` unchanged, and its only effect on the sleep
structure is possibly appending its own entry. -/
theorem timer_sleep_frame (m : Bool) (tid : Nat) (d : Int) (s : TimerState)
    (t : Nat) :
    ((timer_sleep m tid d s).threads t).mlfq_priority =
      (s.threads t).mlfq_priority ∧
    ((timer_sleep m tid d s).threads t).ticks_at_priority =
      (s.threads t).ticks_at_priority ∧
    (timer_sleep m tid d s).ticks = s.ticks ∧
    ((timer_sleep m tid d s).sleep_list = s.sleep_list ∨
      ∃ e, (timer_sleep m tid d s).sleep_list = s.sleep_list ++ [e]) := by
  by_cases hd : d ≤ 0
  · simp [timer_sleep, hd]
  · refine ⟨?_, ?_, ?_, ?_⟩
    · by_cases ht : t = tid <;>
        simp [timer_sleep, hd, ht, Function.update]
    · by_cases ht : t = tid <;>
        simp [timer_sleep, hd, ht, Function.update]
    · simp [timer_sleep, hd]
    · refine Or.inr (Exists.intro ?_ ?_)
      · exact
          { tid := tid
            wake_tick := s.ticks + d
            saved_mlfq_priority :=
              if m then (s.threads tid).mlfq_priority else 0
            saved_ticks_at_priority :=
              if m then (s.threads tid).ticks_at_priority else 0 }
      · simp [timer_sleep, hd]
